import Mathlib

/-!
Shallow embedding of the delta-api node pool.

Source of truth: `src/obj_model/node_pool.rs` together with
`src/data_model/conn_status.rs` and `src/data_model/conn_alive_status.rs`.
`src/api.rs` is an earlier, superseded snapshot of the same component and is
used only where it is the sole place a declaration appears (the result enums
for add/connect/disconnect/remove).

Rust `HashMap` values are modelled as association lists with the lookup,
replacing-insert, erase and in-place-update operations used by the source.
Rust panics (every `.unwrap()` on a fallible transport call) are modelled by
`Option`: a result of `none` means the process aborted.  The remote-session
collaborator (ssh2) and the local filesystem are modelled as oracles: records
of functions giving the outcome of each primitive the source invokes.
-/

/-- Lookup in an association list; models `HashMap::get` / indexing, which
returns the entry for the key (first occurrence). -/
def mfind {α β : Type} [DecidableEq α] : List (α × β) → α → Option β
  | [], _ => none
  | (k, v) :: rest, key => if k = key then some v else mfind rest key

/-- Models `HashMap::contains_key`. -/
def mcontains {α β : Type} [DecidableEq α] (m : List (α × β)) (key : α) : Bool :=
  (mfind m key).isSome

/-- Models `HashMap::insert`: replaces the value of an existing key, otherwise
adds the binding. -/
def minsert {α β : Type} [DecidableEq α] : List (α × β) → α → β → List (α × β)
  | [], k, v => [(k, v)]
  | (k1, v1) :: rest, k, v =>
      if k1 = k then (k, v) :: rest else (k1, v1) :: minsert rest k v

/-- Models `HashMap::remove` (dropping every binding of the key). -/
def merase {α β : Type} [DecidableEq α] : List (α × β) → α → List (α × β)
  | [], _ => []
  | (k1, v1) :: rest, key =>
      if k1 = key then merase rest key else (k1, v1) :: merase rest key

/-- Models `HashMap::get_mut` followed by writing through the reference:
updates the value bound to the key in place, when present. -/
def mupdate {α β : Type} [DecidableEq α] : List (α × β) → α → (β → β) → List (α × β)
  | [], _, _ => []
  | (k1, v1) :: rest, k, f =>
      if k1 = k then (k, f v1) :: rest else (k1, v1) :: mupdate rest k f

/-- Value of a list of decimal digit characters; `none` if the list is empty
or holds a non-digit.  Helper for the Rust `str::parse::<uN>` model. -/
def digitsVal : List Char → Nat → Option Nat
  | [], acc => some acc
  | c :: rest, acc =>
      if c.isDigit then digitsVal rest (acc * 10 + (c.toNat - 48)) else none

/-- Models Rust `str::parse::<uN>()` for an unsigned integer type with
exclusive upper bound `bound`: an optional leading plus sign, then one or more
decimal digits, and the value must fit the type. -/
def rustParseUInt (s : String) (bound : Nat) : Option Nat :=
  let cs :=
    match s.data with
    | c :: rest => if c = Char.ofNat 43 then rest else c :: rest
    | [] => []
  match cs with
  | [] => none
  | cs =>
      match digitsVal cs 0 with
      | some v => if v < bound then some v else none
      | none => none

/-- Rust `str::parse::<u64>()` (success as `some value`). -/
def parse_u64 (s : String) : Option Nat := rustParseUInt s (2 ^ 64)

/-- Rust `str::parse::<u16>()` (success as `some value`). -/
def parse_u16 (s : String) : Option Nat := rustParseUInt s (2 ^ 16)

/-- Is `pat` a prefix of `s` (as character lists)?  Helper for the Rust
`str::contains` model. -/
def hasPre : List Char → List Char → Bool
  | _, [] => true
  | [], _ :: _ => false
  | c :: cs, d :: ds => decide (c = d) && hasPre cs ds

/-- Does `pat` occur as a contiguous run inside `s`? -/
def hasSubAux : List Char → List Char → Bool
  | [], pat => pat.isEmpty
  | c :: rest, pat => hasPre (c :: rest) pat || hasSubAux rest pat

/-- Models Rust `str::contains(&str)` (substring test). -/
def hasSubstr (s pat : String) : Bool :=
  hasSubAux s.data pat.data

/-- Models Rust `str::contains(char)` (single-character containment). -/
def strHasChar (s : String) (c : Char) : Bool :=
  s.data.contains c

/-- Leading-whitespace removal, helper for the Rust `str::trim` model. -/
def dropWs (cs : List Char) : List Char :=
  cs.dropWhile (fun c => c.isWhitespace)

/-- Models Rust `str::trim` (drop leading and trailing whitespace; Rust trims
the Unicode whitespace class, which agrees on the ASCII sentinel contents the
pool reads). -/
def rustTrim (s : String) : String :=
  String.mk ((dropWs ((dropWs s.data).reverse)).reverse)

/-- The single-quote character, written without a literal apostrophe. -/
def squote : Char := Char.ofNat 39

/-- The double-quote character. -/
def dquote : Char := Char.ofNat 34

/-- The single-quote character as a one-character string, used to rebuild the
remote command literals of the source. -/
def sqStr : String := String.mk [squote]

/-- Modelled from the spec: `data_model/deploy_subject.rs` is not under
`src/`.  Per §3 of the spec, `DeploySubject` is a closed enumeration of deploy
targets with one reserved variant denoting the orchestrator itself; the source
(`node_pool.rs`) names that reserved variant `Delta`.  The non-reserved
variants are not shown in `src/`, so one representative non-reserved variant
(`Visao`, the name of the deployed binary throughout the source's remote
commands) stands for them. -/
inductive DeploySubject : Type where
  | Delta : DeploySubject
  | Visao : DeploySubject
deriving DecidableEq

/-- Per-subject pipeline flags; from `src/data_model/conn_status.rs`. -/
structure SubjectStatus : Type where
  deploy_archive_copied : Bool
  deploy_archive_extracted : Bool
  deploy_archive_tested : Bool
  deployed : Bool
  running : Bool
deriving DecidableEq

/-- `SubjectStatus::new()`: all flags false. -/
def SubjectStatus.new : SubjectStatus :=
  { deploy_archive_copied := false
    deploy_archive_extracted := false
    deploy_archive_tested := false
    deployed := false
    running := false }

/-- Per-node connection status; from `src/data_model/conn_status.rs`. -/
structure ConnStatus : Type where
  connected : Bool
  subjects : List (DeploySubject × SubjectStatus)
  platform : String
deriving DecidableEq

/-- `ConnStatus::new(connected)`: empty subject map, empty platform. -/
def ConnStatus.new (connected : Bool) : ConnStatus :=
  { connected := connected, subjects := [], platform := "" }

/-- `ConnStatus::get_subject`: the stored status for the subject, or a fresh
all-false status when the subject is absent (lazy default). -/
def ConnStatus.get_subject (cs : ConnStatus) (subject : DeploySubject) : SubjectStatus :=
  match mfind cs.subjects subject with
  | none => SubjectStatus.new
  | some st => st

/-- `ConnStatus::set_subject`: overwrite the stored status in place when the
subject is present, otherwise insert it. -/
def ConnStatus.set_subject (cs : ConnStatus) (subject : DeploySubject)
    (status : SubjectStatus) : ConnStatus :=
  if mcontains cs.subjects subject then
    { cs with subjects := mupdate cs.subjects subject (fun _ => status) }
  else
    { cs with subjects := minsert cs.subjects subject status }

/-- Liveness report.  `src/data_model/conn_alive_status.rs` declares a nested
shape (`ConnAliveStatus.subjects : HashMap<DeploySubject, SubjectAliveStatus>`)
that `node_pool.rs` does not compile against: `is_alive` reads and writes the
fields `alive`, `bind_addr`, `bind_port` directly on the record it returns.
The embedding therefore uses the flat record those accesses require, whose
fields and defaults are exactly those of `SubjectAliveStatus` in
`conn_alive_status.rs` (`alive=false`, empty address, port `0`). -/
structure ConnAliveStatus : Type where
  alive : Bool
  bind_addr : String
  bind_port : Nat
deriving DecidableEq

/-- `ConnAliveStatus::new()` with `SubjectAliveStatus::new()` defaults. -/
def ConnAliveStatus.new : ConnAliveStatus :=
  { alive := false, bind_addr := "", bind_port := 0 }

/-- A registered node; from `src/obj_model/node.rs` as used by
`node_pool.rs`: an address plus a string-keyed parameter map. -/
structure Node : Type where
  fqdn : String
  str_params : List (String × String)

/-- Modelled from the spec: `data_model/node_parameters.rs` is not under
`src/`.  `node_pool.rs` resolves parameters through `param.to_string()` keys;
the variants used by the source are Username, Password, Distr (distribution
archive path, spelled `distr` in the spec's §8 scenario), BindAddr and
BindPort. -/
inductive NodeParameters : Type where
  | Username : NodeParameters
  | Password : NodeParameters
  | Distr : NodeParameters
  | BindAddr : NodeParameters
  | BindPort : NodeParameters

/-- Modelled from the spec: the `to_string` key of each well-known parameter
(the exact key spellings live outside `src/`; only their distinctness is
observable to the claims). -/
def NodeParameters.to_string : NodeParameters → String
  | NodeParameters.Username => "username"
  | NodeParameters.Password => "password"
  | NodeParameters.Distr => "distr"
  | NodeParameters.BindAddr => "bind_addr"
  | NodeParameters.BindPort => "bind_port"

/-- Oracle for one live ssh2 session.  Each field gives the outcome of one
primitive of the collaborator as invoked by the source; `none` means the
underlying call returned `Err` at a point the source `.unwrap()`s (a panic).
`chanExec cmd` bundles `channel_session()` + `exec(cmd)` + `read_to_string`
(`NodePool::execute`); `shellExec cmds` bundles the interactive shell of
`NodePool::execute_vec`; `scpSend path` is whether `scp_send` to that remote
path is accepted (an `Err` there is matched, not unwrapped); `scpFinish` is
whether the `send_eof/wait_eof/close/wait_close` tail of `upload_file`
succeeds (each of those four is unwrapped). -/
structure SshSession : Type where
  chanExec : String → Option String
  shellExec : List String → Option String
  scpSend : String → Bool
  scpFinish : Bool

/-- Oracle for the local filesystem reads of `upload_file`. -/
structure LocalFs : Type where
  openOk : String → Bool
  metadataOk : String → Bool

/-- Oracle for one `connect` attempt: outcomes of `TcpStream::connect`,
`Session::new`, `handshake`, `userauth_password`, `authenticated`, and the
behaviour of the session from then on. -/
structure Transport : Type where
  tcpOk : Bool
  sessNewOk : Bool
  handshakeOk : Bool
  authAccepted : Bool
  authenticated : Bool
  session : SshSession

/-- Modelled from the spec: `data_model/instance.rs` is not under `src/`.
Per §3/§4.2 an Instance holds the live session handle and a `ConnStatus`;
`Instance::new_ssh(sess, b)` stores the session and a fresh `ConnStatus` with
the given connected flag (`node_pool.rs` passes `true`) and an empty subject
map.  The `Option` around the session mirrors the source's
`inst.ssh_session.as_ref().unwrap()` accesses. -/
structure Instance : Type where
  ssh_session : Option SshSession
  conn_status : ConnStatus

/-- Modelled from the spec: `Instance::new_ssh`. -/
def Instance.new_ssh (sess : SshSession) (connected : Bool) : Instance :=
  { ssh_session := some sess, conn_status := ConnStatus.new connected }

/-- From `src/api.rs`. -/
inductive AddResult : Type where
  | Ok : AddResult
  | NodeAlreadyExists : AddResult
deriving DecidableEq

/-- From `src/api.rs`. -/
inductive ConnectResult : Type where
  | Ok : ConnectResult
  | NodeNotFound : ConnectResult
  | NotAuthenticated : ConnectResult
deriving DecidableEq

/-- From `src/api.rs`. -/
inductive DisconnectResult : Type where
  | Ok : DisconnectResult
  | NodeNotFound : DisconnectResult
deriving DecidableEq

/-- From `src/api.rs`. -/
inductive RemoveResult : Type where
  | Ok : RemoveResult
  | NodeNotFound : RemoveResult
deriving DecidableEq

/-- Modelled from the spec: `data_model/result/deploy_result.rs` is not under
`src/`; the variants are exactly those constructed by `NodePool::deploy` and
listed in §4.3 of the spec. -/
inductive DeployResult : Type where
  | Ok : DeployResult
  | InvalidArgument : DeployResult
  | NodeNotFound : DeployResult
  | NodeNotConnected : DeployResult
  | DeployCopyFailed : DeployResult
  | DeployExtractionFailed : DeployResult
  | DeployTestFailed : DeployResult
deriving DecidableEq

/-- Modelled from the spec: `data_model/result/run_result.rs` is not under
`src/`; the variants are exactly those constructed by `NodePool::run` and
listed in §4.4 of the spec. -/
inductive RunResult : Type where
  | Ok : RunResult
  | NodeNotFound : RunResult
  | NodeNotConnected : RunResult
  | RunFailed : RunResult
deriving DecidableEq

/-- The pool state; from `node_pool.rs`. -/
structure NodePool : Type where
  nodes : List (String × Node)
  instances : List (String × Instance)
  str_params : List (String × String)

/-- `NodePool::new()`. -/
def NodePool.new : NodePool :=
  { nodes := [], instances := [], str_params := [] }

/-- `NodePool::get_node_param`: node-local override, then pool-wide default,
then the empty string. -/
def NodePool.get_node_param (p : NodePool) (node : Node) (param : NodeParameters) : String :=
  let sparam := param.to_string
  match mfind node.str_params sparam with
  | some v => v
  | none =>
      match mfind p.str_params sparam with
      | some v => v
      | none => ""

/-- `NodePool::execute`: one remote command over a fresh channel.  The three
`.unwrap()`s of the source (channel open, exec, read) surface as `none`. -/
def NodePool.execute (sess : SshSession) (cmd : String) : Option String :=
  sess.chanExec cmd

/-- `NodePool::execute_vec`: the interactive shell variant. -/
def NodePool.execute_vec (sess : SshSession) (commands : List String) : Option String :=
  sess.shellExec commands

/-- `NodePool::upload_file`.  `File::open`, `metadata` and `scp_send` errors
are matched and yield `false`; the unwrapped eof/close tail yields a panic
(`none`) when it fails; otherwise `true`. -/
def NodePool.upload_file (fs : LocalFs) (sess : SshSession)
    (local_path remote_path : String) : Option Bool :=
  if !fs.openOk local_path then some false
  else if !fs.metadataOk local_path then some false
  else if !sess.scpSend remote_path then some false
  else if sess.scpFinish then some true
  else none

/-- `NodePool::set_state`: overwrite the conn_status of the named Instance.
The source unwraps `get_mut`; every call site is guarded by an
`instances.contains_key` check, so the absent-key panic is unreachable and the
update is modelled as in-place update of the present entry. -/
def NodePool.set_state (p : NodePool) (name : String) (conn_status : ConnStatus) : NodePool :=
  { p with instances := mupdate p.instances name (fun inst => { inst with conn_status := conn_status }) }

/-- `NodePool::add`. -/
def NodePool.add (p : NodePool) (name fqdn : String)
    (node_params : List (String × String)) : AddResult × NodePool :=
  if mcontains p.nodes name then
    (AddResult.NodeAlreadyExists, p)
  else
    (AddResult.Ok, { p with nodes := minsert p.nodes name { fqdn := fqdn, str_params := node_params } })

/-- `NodePool::is_connected`: the stored status, or a fresh disconnected one. -/
def NodePool.is_connected (p : NodePool) (name : String) : ConnStatus :=
  match mfind p.instances name with
  | some inst => inst.conn_status
  | none => ConnStatus.new false

/-- `NodePool::is_alive`.  Reads the pid sentinel, probes the process, then
reads the bind sentinels; `none` models the panics of the unwrapped session
accesses. -/
def NodePool.is_alive (p : NodePool) (name : String) : Option ConnAliveStatus :=
  let conn_alive_status := ConnAliveStatus.new
  match mfind p.instances name with
  | none => some conn_alive_status
  | some inst =>
      match inst.ssh_session with
      | none => none
      | some sess =>
          match NodePool.execute sess ("cat /tmp/visao/pid") with
          | none => none
          | some pid =>
              if (parse_u64 (rustTrim pid)).isSome then
                match NodePool.execute sess ("kill -0 " ++ rustTrim pid ++ " && echo runs") with
                | none => none
                | some runs =>
                    if hasSubstr runs ("runs") then
                      match NodePool.execute sess ("cat /tmp/visao/bind_addr") with
                      | none => none
                      | some bind_addr =>
                          match NodePool.execute sess ("cat /tmp/visao/bind_port") with
                          | none => none
                          | some bind_port =>
                              match parse_u16 (rustTrim bind_port) with
                              | some v =>
                                  some { conn_alive_status with
                                           alive := true
                                           bind_addr := rustTrim bind_addr
                                           bind_port := v }
                              | none => some conn_alive_status
                    else some conn_alive_status
              else some conn_alive_status

/-- `NodePool::connect`.  The unwrapped `TcpStream::connect`, `Session::new`
and `handshake` surface as `none`; credential rejection and a failed
`authenticated()` check yield `NotAuthenticated`; on success the captured
platform string is stored in a fresh Instance. -/
def NodePool.connect (T : Transport) (p : NodePool) (name : String) :
    Option (ConnectResult × NodePool) :=
  match mfind p.nodes name with
  | none => some (ConnectResult.NodeNotFound, p)
  | some _node =>
      let p1 :=
        if mcontains p.instances name then
          { p with instances := merase p.instances name }
        else p
      if !T.tcpOk then none
      else if !T.sessNewOk then none
      else if !T.handshakeOk then none
      else if !T.authAccepted then some (ConnectResult.NotAuthenticated, p1)
      else if !T.authenticated then some (ConnectResult.NotAuthenticated, p1)
      else
        match NodePool.execute T.session ("uname -a") with
        | none => none
        | some plat =>
            let inst := Instance.new_ssh T.session true
            let inst := { inst with conn_status := { inst.conn_status with platform := plat } }
            some (ConnectResult.Ok, { p1 with instances := minsert p1.instances name inst })

/-- `NodePool::disconnect`. -/
def NodePool.disconnect (p : NodePool) (name : String) : DisconnectResult × NodePool :=
  if !(mcontains p.nodes name) then
    (DisconnectResult.NodeNotFound, p)
  else
    let p1 :=
      if mcontains p.instances name then
        { p with instances := merase p.instances name }
      else p
    (DisconnectResult.Ok, p1)

/-- `NodePool::remove`: drop the registry entry and any live Instance. -/
def NodePool.remove (p : NodePool) (name : String) : RemoveResult × NodePool :=
  if !(mcontains p.nodes name) then
    (RemoveResult.NodeNotFound, p)
  else
    let p1 := { p with nodes := merase p.nodes name }
    let p2 :=
      if mcontains p1.instances name then
        { p1 with instances := merase p1.instances name }
      else p1
    (RemoveResult.Ok, p2)

/-- The fixed remote staging path of the deploy pipeline. -/
def archivePath : String := "/tmp/visao-archive.tar.xz"

/-- The remote extraction command of the deploy pipeline. -/
def extractCmd : String :=
  "tar xvf /tmp/visao-archive.tar.xz -C /tmp/visao > /dev/null 2> /dev/null && echo ok"

/-- The smoke-test command of the deploy pipeline. -/
def testCmd : String := "/tmp/visao/bin/visao --version"

/-- `NodePool::deploy`: reserved-subject check, registry and session checks,
then the staged copy/extract/test pipeline with the status written back after
every terminal outcome. -/
def NodePool.deploy (fs : LocalFs) (p : NodePool) (name : String)
    (subject : DeploySubject) : Option (DeployResult × NodePool) :=
  if subject = DeploySubject.Delta then
    some (DeployResult.InvalidArgument, p)
  else
    match mfind p.nodes name with
    | none => some (DeployResult.NodeNotFound, p)
    | some node =>
        match mfind p.instances name with
        | none => some (DeployResult.NodeNotConnected, p)
        | some inst =>
            match inst.ssh_session with
            | none => none
            | some sess =>
                let conn_status := inst.conn_status
                let st0 := conn_status.get_subject subject
                let st1 := { st0 with
                               deployed := false
                               deploy_archive_copied := false
                               deploy_archive_extracted := false
                               deploy_archive_tested := false }
                match NodePool.upload_file fs sess (p.get_node_param node NodeParameters.Distr) archivePath with
                | none => none
                | some false =>
                    some (DeployResult.DeployCopyFailed,
                          p.set_state name (conn_status.set_subject subject st1))
                | some true =>
                    let st2 := { st1 with deploy_archive_copied := true }
                    match NodePool.execute sess extractCmd with
                    | none => none
                    | some out1 =>
                        if out1 = "" then
                          some (DeployResult.DeployExtractionFailed,
                                p.set_state name (conn_status.set_subject subject st2))
                        else
                          let st3 := { st2 with deploy_archive_extracted := true }
                          match NodePool.execute sess testCmd with
                          | none => none
                          | some out2 =>
                              if out2 = "" then
                                some (DeployResult.DeployTestFailed,
                                      p.set_state name (conn_status.set_subject subject st3))
                              else
                                let st4 := { st3 with
                                               deploy_archive_tested := true
                                               deployed := true }
                                some (DeployResult.Ok,
                                      p.set_state name (conn_status.set_subject subject st4))

/-- `NodePool::infer_conn_params`: bind-address/bind-port resolution with the
quote-character and u16 sanitization of the source. -/
def NodePool.infer_conn_params (p : NodePool) (node : Node) : String × String :=
  let bind_addr0 := p.get_node_param node NodeParameters.BindAddr
  let bind_addr1 :=
    if strHasChar bind_addr0 squote || strHasChar bind_addr0 dquote then "" else bind_addr0
  let bind_addr := if bind_addr1 = "" then "127.0.0.1" else bind_addr1
  let bind_port0 := p.get_node_param node NodeParameters.BindPort
  let bind_port1 := if !(parse_u16 bind_port0).isSome then "" else bind_port0
  let bind_port := if bind_port1 = "" then "5700" else bind_port1
  (bind_addr, bind_port)

/-- The best-effort kill of a previous instance in `run` (rebuilt with the
source's single quotes around the bash script). -/
def killExistingCmd : String :=
  "/bin/bash -c " ++ sqStr ++
    "test -f /tmp/visao/pid && test $(cat /tmp/visao/pid) -gt 0 && kill $(cat /tmp/visao/pid)" ++ sqStr

/-- The command vector `run` pushes, as a function of the resolved bind
address and port (the only values interpolated into it). -/
def run_commands (addr port : String) : List String :=
  [ "/tmp/visao/bin/visao --server " ++ sqStr ++ "tcp://" ++ addr ++ ":" ++ port ++ sqStr ++
      " < /dev/null > /dev/null 2> /dev/null &"
  , "echo $! > /tmp/visao/pid"
  , "echo " ++ addr ++ " > /tmp/visao/bind_addr"
  , "echo " ++ port ++ " > /tmp/visao/bind_port"
  , "sleep 4"
  , "kill -0 \"$(cat /tmp/visao/pid)\" && echo pid \"$(cat /tmp/visao/pid)\"" ]

/-- `NodePool::run`: kill any previous instance, launch a new one with the
sanitized bind parameters, confirm via the pid marker in the combined output,
and persist the `running` flag. -/
def NodePool.run (p : NodePool) (name : String) (subject : DeploySubject) :
    Option (RunResult × NodePool) :=
  match mfind p.nodes name with
  | none => some (RunResult.NodeNotFound, p)
  | some node =>
      match mfind p.instances name with
      | none => some (RunResult.NodeNotConnected, p)
      | some inst =>
          match inst.ssh_session with
          | none => none
          | some sess =>
              let conn_status := inst.conn_status
              let st0 := conn_status.get_subject subject
              let stStop := { st0 with running := false }
              match NodePool.execute sess killExistingCmd with
              | none => none
              | some _ =>
                  let conn_params := p.infer_conn_params node
                  let commands := run_commands conn_params.1 conn_params.2
                  match NodePool.execute_vec sess commands with
                  | none => none
                  | some exec_result =>
                      if !(hasSubstr exec_result ("pid")) then
                        some (RunResult.RunFailed,
                              p.set_state name (conn_status.set_subject subject stStop))
                      else
                        let stRun := { st0 with running := true }
                        some (RunResult.Ok,
                              p.set_state name (conn_status.set_subject subject stRun))

/-- A session whose primitives all succeed with non-empty output. -/
def goodSess : SshSession :=
  { chanExec := fun _ => some ("ok-output")
    shellExec := fun _ => some ("pid 123")
    scpSend := fun _ => true
    scpFinish := true }

/-- A connect attempt in which every transport primitive succeeds. -/
def allOkT : Transport :=
  { tcpOk := true, sessNewOk := true, handshakeOk := true
    authAccepted := true, authenticated := true, session := goodSess }

/-- A connect attempt refused at the TCP level (the fault the source
unwraps). -/
def refusedT : Transport := { allOkT with tcpOk := false }

/-- A filesystem on which every local archive read succeeds. -/
def goodFs : LocalFs := { openOk := fun _ => true, metadataOk := fun _ => true }

/-- A filesystem on which the local archive cannot be opened. -/
def badFs : LocalFs := { openOk := fun _ => false, metadataOk := fun _ => true }

/-- A registered node with no parameter overrides. -/
def node1 : Node := { fqdn := "host:22", str_params := [] }

/-- The pool after `add("n1", "host:22", [])` from the empty pool. -/
def pool1 : NodePool :=
  { nodes := [("n1", node1)], instances := [], str_params := [] }

/-- The Instance created by a fully successful `connect` over `allOkT`. -/
def inst2 : Instance :=
  { ssh_session := some goodSess
    conn_status := { connected := true, subjects := [], platform := "ok-output" } }

/-- The pool after `connect("n1")` over `allOkT` from `pool1`. -/
def pool2 : NodePool :=
  { nodes := [("n1", node1)], instances := [("n1", inst2)], str_params := [] }

/-- The subject status persisted by a fully successful deploy. -/
def stDeployed : SubjectStatus :=
  { deploy_archive_copied := true
    deploy_archive_extracted := true
    deploy_archive_tested := true
    deployed := true
    running := false }

/-- The Instance of `pool2` after a fully successful `deploy` of `Visao`. -/
def inst3 : Instance :=
  { ssh_session := some goodSess
    conn_status := { connected := true
                     subjects := [(DeploySubject.Visao, stDeployed)]
                     platform := "ok-output" } }

/-- The pool after a fully successful `deploy("n1", Visao)` from `pool2`. -/
def pool3 : NodePool :=
  { nodes := [("n1", node1)], instances := [("n1", inst3)], str_params := [] }

/-- A session for exercising `run`: the kill probe answers, the interactive
shell reports a live pid. -/
def runSess : SshSession :=
  { chanExec := fun _ => some ("x")
    shellExec := fun _ => some ("pid 99")
    scpSend := fun _ => true
    scpFinish := true }

/-- A node whose bind address holds a quote character and whose bind port is
the spec's `notaport` example. -/
def nodeQ : Node :=
  { fqdn := "h", str_params := [("bind_addr", "bad\"addr"), ("bind_port", "notaport")] }

/-- A connected Instance over `runSess`. -/
def instQ : Instance := { ssh_session := some runSess, conn_status := ConnStatus.new true }

/-- A pool holding `nodeQ`, connected. -/
def poolQ : NodePool :=
  { nodes := [("q", nodeQ)], instances := [("q", instQ)], str_params := [] }

/-- A session whose sentinel reads report a live process on port 6000. -/
def aliveSess : SshSession :=
  { chanExec := fun cmd =>
      if cmd = "cat /tmp/visao/pid" then some ("123")
      else if cmd = "cat /tmp/visao/bind_addr" then some ("0.0.0.0")
      else if cmd = "cat /tmp/visao/bind_port" then some ("6000")
      else some ("runs")
    shellExec := fun _ => some ("")
    scpSend := fun _ => true
    scpFinish := true }

/-- A connected Instance over `aliveSess`. -/
def instA : Instance := { ssh_session := some aliveSess, conn_status := ConnStatus.new true }

/-- A pool holding one connected node over `aliveSess`. -/
def poolA : NodePool :=
  { nodes := [("a", { fqdn := "h", str_params := [] })]
    instances := [("a", instA)]
    str_params := [] }

/-- The deploy-flag invariant on one subject status: the stage flags are
reached strictly in pipeline order, so `deployed` holds only after copy,
extract and test all succeeded. -/
def StOk (st : SubjectStatus) : Prop :=
  (st.deploy_archive_extracted = true → st.deploy_archive_copied = true) ∧
  (st.deploy_archive_tested = true → st.deploy_archive_extracted = true) ∧
  (st.deployed = true → st.deploy_archive_tested = true)

/-- Every subject stored in a ConnStatus satisfies the deploy-flag
invariant. -/
def SubjectsOk (cs : ConnStatus) : Prop :=
  ∀ subj st, mfind cs.subjects subj = some st → StOk st

/-- The deploy-flag invariant over a whole pool. -/
def DeployInv (p : NodePool) : Prop :=
  ∀ name inst, mfind p.instances name = some inst → SubjectsOk inst.conn_status

/-- No dangling Instance: every live Instance belongs to a registered node. -/
def InstWf (p : NodePool) : Prop :=
  ∀ name inst, mfind p.instances name = some inst → mcontains p.nodes name = true

/-- One exposed state-changing operation of the pool, for any behaviour of
the collaborators; panicking outcomes produce no successor state. -/
inductive Step : NodePool → NodePool → Prop where
  | add (p : NodePool) (name fqdn : String) (params : List (String × String)) :
      Step p (p.add name fqdn params).2
  | remove (p : NodePool) (name : String) : Step p (p.remove name).2
  | disconnect (p : NodePool) (name : String) : Step p (p.disconnect name).2
  | connect (p : NodePool) (T : Transport) (name : String) (r : ConnectResult × NodePool)
      (h : NodePool.connect T p name = some r) : Step p r.2
  | deploy (p : NodePool) (fs : LocalFs) (name : String) (subject : DeploySubject)
      (r : DeployResult × NodePool) (h : NodePool.deploy fs p name subject = some r) :
      Step p r.2
  | run (p : NodePool) (name : String) (subject : DeploySubject)
      (r : RunResult × NodePool) (h : NodePool.run p name subject = some r) :
      Step p r.2

/-- Pool states reachable from `NodePool::new` by exposed operations. -/
inductive Reachable : NodePool → Prop where
  | base : Reachable NodePool.new
  | step {p q : NodePool} (hp : Reachable p) (hs : Step p q) : Reachable q

/-- Pool states reachable from `NodePool::new` by exposed operations in which
no `add` was ever invoked with the name `bad`. -/
inductive ReachableAvoiding (bad : String) : NodePool → Prop where
  | base : ReachableAvoiding bad NodePool.new
  | add {p : NodePool} (hp : ReachableAvoiding bad p) (name fqdn : String)
      (params : List (String × String)) (hne : name ≠ bad) :
      ReachableAvoiding bad (p.add name fqdn params).2
  | remove {p : NodePool} (hp : ReachableAvoiding bad p) (name : String) :
      ReachableAvoiding bad (p.remove name).2
  | disconnect {p : NodePool} (hp : ReachableAvoiding bad p) (name : String) :
      ReachableAvoiding bad (p.disconnect name).2
  | connect {p : NodePool} (hp : ReachableAvoiding bad p) (T : Transport) (name : String)
      (r : ConnectResult × NodePool) (h : NodePool.connect T p name = some r) :
      ReachableAvoiding bad r.2
  | deploy {p : NodePool} (hp : ReachableAvoiding bad p) (fs : LocalFs) (name : String)
      (subject : DeploySubject) (r : DeployResult × NodePool)
      (h : NodePool.deploy fs p name subject = some r) :
      ReachableAvoiding bad r.2
  | run {p : NodePool} (hp : ReachableAvoiding bad p) (name : String)
      (subject : DeploySubject) (r : RunResult × NodePool)
      (h : NodePool.run p name subject = some r) :
      ReachableAvoiding bad r.2

theorem mfind_minsert {α β : Type} [DecidableEq α] (m : List (α × β)) (k : α) (v : β)
    (key : α) :
    mfind (minsert m k v) key = if k = key then some v else mfind m key := by
  induction m with
  | nil => simp [minsert, mfind]
  | cons kv rest ih =>
      obtain ⟨k1, v1⟩ := kv
      by_cases h1 : k1 = k
      · subst h1
        by_cases h2 : k1 = key <;> simp [minsert, mfind, h2]
      · by_cases h2 : k1 = key
        · subst h2
          have hk : ¬ k = k1 := fun hh => h1 hh.symm
          simp [minsert, mfind, h1, hk]
        · simp [minsert, mfind, h1, h2, ih]

theorem mfind_merase {α β : Type} [DecidableEq α] (m : List (α × β)) (k : α) (key : α) :
    mfind (merase m k) key = if key = k then none else mfind m key := by
  induction m with
  | nil => simp [merase, mfind]
  | cons kv rest ih =>
      obtain ⟨k1, v1⟩ := kv
      by_cases h1 : k1 = k
      · subst h1
        by_cases h2 : key = k1
        · subst h2
          simp [merase, ih]
        · have hk : ¬ k1 = key := fun hh => h2 hh.symm
          simp [merase, mfind, hk, ih, h2]
      · by_cases h2 : k1 = key
        · have hk2 : ¬ key = k := fun hh => h1 (h2.trans hh)
          simp [merase, mfind, h1, h2, hk2]
        · simp [merase, mfind, h1, h2, ih]

theorem mfind_mupdate {α β : Type} [DecidableEq α] (m : List (α × β)) (k : α) (f : β → β)
    (key : α) :
    mfind (mupdate m k f) key =
      if k = key then Option.map f (mfind m k) else mfind m key := by
  induction m with
  | nil => simp [mupdate, mfind]
  | cons kv rest ih =>
      obtain ⟨k1, v1⟩ := kv
      by_cases h1 : k1 = k
      · subst h1
        by_cases h2 : k1 = key <;> simp [mupdate, mfind, h2]
      · by_cases h2 : k1 = key
        · subst h2
          have hk : ¬ k = k1 := fun hh => h1 hh.symm
          simp [mupdate, mfind, h1, hk]
        · simp [mupdate, mfind, h1, h2, ih]

theorem mcontains_iff {α β : Type} [DecidableEq α] (m : List (α × β)) (key : α) :
    mcontains m key = true ↔ ∃ v, mfind m key = some v := by
  simp [mcontains, Option.isSome_iff_exists]

theorem mcontains_false {α β : Type} [DecidableEq α] (m : List (α × β)) (key : α)
    (h : mfind m key = none) : mcontains m key = false := by
  simp [mcontains, h]

theorem find_set_subject (cs : ConnStatus) (subject : DeploySubject) (st : SubjectStatus)
    (key : DeploySubject) :
    mfind (cs.set_subject subject st).subjects key =
      if subject = key then some st else mfind cs.subjects key := by
  unfold ConnStatus.set_subject
  by_cases h : mcontains cs.subjects subject
  · obtain ⟨v, hv⟩ := (mcontains_iff _ _).mp h
    by_cases h2 : subject = key
    · subst h2
      simp [h, mfind_mupdate, hv]
    · simp [h, mfind_mupdate, h2]
  · simp [h, mfind_minsert]

theorem get_subject_set_subject (cs : ConnStatus) (subject : DeploySubject)
    (st : SubjectStatus) :
    (cs.set_subject subject st).get_subject subject = st := by
  simp [ConnStatus.get_subject, find_set_subject]

theorem find_instances_set_state (p : NodePool) (name : String) (cs : ConnStatus)
    (key : String) :
    mfind (p.set_state name cs).instances key =
      if name = key then
        Option.map (fun inst => { inst with conn_status := cs }) (mfind p.instances name)
      else mfind p.instances key := by
  simp [NodePool.set_state, mfind_mupdate]

theorem nodes_set_state (p : NodePool) (name : String) (cs : ConnStatus) :
    (p.set_state name cs).nodes = p.nodes := rfl

theorem is_connected_set_state (p : NodePool) (name : String) (cs : ConnStatus)
    (inst : Instance) (h : mfind p.instances name = some inst) :
    (p.set_state name cs).is_connected name = cs := by
  simp [NodePool.is_connected, find_instances_set_state, h]

theorem deploy_copy_failed (fs : LocalFs) (p : NodePool) (name : String)
    (subject : DeploySubject) (node : Node) (inst : Instance) (sess : SshSession)
    (hsub : subject ≠ DeploySubject.Delta)
    (hnode : mfind p.nodes name = some node)
    (hinst : mfind p.instances name = some inst)
    (hsess : inst.ssh_session = some sess)
    (hup : NodePool.upload_file fs sess (p.get_node_param node NodeParameters.Distr)
             archivePath = some false) :
    NodePool.deploy fs p name subject =
      some (DeployResult.DeployCopyFailed,
            p.set_state name (inst.conn_status.set_subject subject
              { inst.conn_status.get_subject subject with
                  deployed := false
                  deploy_archive_copied := false
                  deploy_archive_extracted := false
                  deploy_archive_tested := false })) := by
  simp [NodePool.deploy, hsub, hnode, hinst, hsess, hup]

theorem deploy_extraction_failed (fs : LocalFs) (p : NodePool) (name : String)
    (subject : DeploySubject) (node : Node) (inst : Instance) (sess : SshSession)
    (hsub : subject ≠ DeploySubject.Delta)
    (hnode : mfind p.nodes name = some node)
    (hinst : mfind p.instances name = some inst)
    (hsess : inst.ssh_session = some sess)
    (hup : NodePool.upload_file fs sess (p.get_node_param node NodeParameters.Distr)
             archivePath = some true)
    (hext : NodePool.execute sess extractCmd = some ("")) :
    NodePool.deploy fs p name subject =
      some (DeployResult.DeployExtractionFailed,
            p.set_state name (inst.conn_status.set_subject subject
              { inst.conn_status.get_subject subject with
                  deployed := false
                  deploy_archive_copied := true
                  deploy_archive_extracted := false
                  deploy_archive_tested := false })) := by
  simp [NodePool.deploy, hsub, hnode, hinst, hsess, hup, hext]

theorem deploy_test_failed (fs : LocalFs) (p : NodePool) (name : String)
    (subject : DeploySubject) (node : Node) (inst : Instance) (sess : SshSession)
    (out1 : String)
    (hsub : subject ≠ DeploySubject.Delta)
    (hnode : mfind p.nodes name = some node)
    (hinst : mfind p.instances name = some inst)
    (hsess : inst.ssh_session = some sess)
    (hup : NodePool.upload_file fs sess (p.get_node_param node NodeParameters.Distr)
             archivePath = some true)
    (hext : NodePool.execute sess extractCmd = some out1) (hout1 : out1 ≠ "")
    (htest : NodePool.execute sess testCmd = some ("")) :
    NodePool.deploy fs p name subject =
      some (DeployResult.DeployTestFailed,
            p.set_state name (inst.conn_status.set_subject subject
              { inst.conn_status.get_subject subject with
                  deployed := false
                  deploy_archive_copied := true
                  deploy_archive_extracted := true
                  deploy_archive_tested := false })) := by
  simp [NodePool.deploy, hsub, hnode, hinst, hsess, hup, hext, hout1, htest]

theorem deploy_all_ok (fs : LocalFs) (p : NodePool) (name : String)
    (subject : DeploySubject) (node : Node) (inst : Instance) (sess : SshSession)
    (out1 out2 : String)
    (hsub : subject ≠ DeploySubject.Delta)
    (hnode : mfind p.nodes name = some node)
    (hinst : mfind p.instances name = some inst)
    (hsess : inst.ssh_session = some sess)
    (hup : NodePool.upload_file fs sess (p.get_node_param node NodeParameters.Distr)
             archivePath = some true)
    (hext : NodePool.execute sess extractCmd = some out1) (hout1 : out1 ≠ "")
    (htest : NodePool.execute sess testCmd = some out2) (hout2 : out2 ≠ "") :
    NodePool.deploy fs p name subject =
      some (DeployResult.Ok,
            p.set_state name (inst.conn_status.set_subject subject
              { inst.conn_status.get_subject subject with
                  deployed := true
                  deploy_archive_copied := true
                  deploy_archive_extracted := true
                  deploy_archive_tested := true })) := by
  simp [NodePool.deploy, hsub, hnode, hinst, hsess, hup, hext, hout1, htest, hout2]

theorem StOk_new : StOk SubjectStatus.new := by
  refine ⟨?_, ?_, ?_⟩ <;> intro h <;> simp [SubjectStatus.new] at h

theorem StOk_running_update (st : SubjectStatus) (b : Bool) (h : StOk st) :
    StOk { st with running := b } := h

theorem StOk_get_subject (cs : ConnStatus) (subject : DeploySubject)
    (h : SubjectsOk cs) : StOk (cs.get_subject subject) := by
  unfold ConnStatus.get_subject
  rcases hf : mfind cs.subjects subject with _ | st
  · exact StOk_new
  · exact h subject st hf

theorem deploy_shape (fs : LocalFs) (p : NodePool) (name : String) (subject : DeploySubject)
    (r : DeployResult) (p2 : NodePool)
    (h : NodePool.deploy fs p name subject = some (r, p2)) :
    p2 = p ∨ ∃ inst st, mfind p.instances name = some inst ∧
      p2 = p.set_state name (inst.conn_status.set_subject subject st) ∧
      st.running = (inst.conn_status.get_subject subject).running ∧ StOk st := by
  by_cases hsub : subject = DeploySubject.Delta
  · simp [NodePool.deploy, hsub] at h
    exact Or.inl h.2.symm
  · rcases hn : mfind p.nodes name with _ | node
    · simp [NodePool.deploy, hsub, hn] at h
      exact Or.inl h.2.symm
    · rcases hi : mfind p.instances name with _ | inst
      · simp [NodePool.deploy, hsub, hn, hi] at h
        exact Or.inl h.2.symm
      · rcases hs : inst.ssh_session with _ | sess
        · simp [NodePool.deploy, hsub, hn, hi, hs] at h
        · rcases hu : NodePool.upload_file fs sess
              (p.get_node_param node NodeParameters.Distr) archivePath with _ | b
          · simp [NodePool.deploy, hsub, hn, hi, hs, hu] at h
          · cases b with
            | false =>
                simp [NodePool.deploy, hsub, hn, hi, hs, hu] at h
                refine Or.inr ⟨inst, _, rfl, h.2.symm, ?_, ?_⟩
                · rfl
                · refine ⟨?_, ?_, ?_⟩ <;> intro hh <;> simp_all
            | true =>
                rcases he : NodePool.execute sess extractCmd with _ | out1
                · simp [NodePool.deploy, hsub, hn, hi, hs, hu, he] at h
                · by_cases hout1 : out1 = ""
                  · simp [NodePool.deploy, hsub, hn, hi, hs, hu, he, hout1] at h
                    refine Or.inr ⟨inst, _, rfl, h.2.symm, ?_, ?_⟩
                    · rfl
                    · refine ⟨?_, ?_, ?_⟩ <;> intro hh <;> simp_all
                  · rcases ht : NodePool.execute sess testCmd with _ | out2
                    · simp [NodePool.deploy, hsub, hn, hi, hs, hu, he, hout1, ht] at h
                    · by_cases hout2 : out2 = ""
                      · simp [NodePool.deploy, hsub, hn, hi, hs, hu, he, hout1, ht, hout2] at h
                        refine Or.inr ⟨inst, _, rfl, h.2.symm, ?_, ?_⟩
                        · rfl
                        · refine ⟨?_, ?_, ?_⟩ <;> intro hh <;> simp_all
                      · simp [NodePool.deploy, hsub, hn, hi, hs, hu, he, hout1, ht, hout2] at h
                        refine Or.inr ⟨inst, _, rfl, h.2.symm, ?_, ?_⟩
                        · rfl
                        · refine ⟨?_, ?_, ?_⟩ <;> intro hh <;> simp_all

theorem run_shape (p : NodePool) (name : String) (subject : DeploySubject)
    (r : RunResult) (p2 : NodePool)
    (h : NodePool.run p name subject = some (r, p2)) :
    p2 = p ∨ ∃ inst b, mfind p.instances name = some inst ∧
      p2 = p.set_state name (inst.conn_status.set_subject subject
             { inst.conn_status.get_subject subject with running := b }) := by
  rcases hn : mfind p.nodes name with _ | node
  · simp [NodePool.run, hn] at h
    exact Or.inl h.2.symm
  · rcases hi : mfind p.instances name with _ | inst
    · simp [NodePool.run, hn, hi] at h
      exact Or.inl h.2.symm
    · rcases hs : inst.ssh_session with _ | sess
      · simp [NodePool.run, hn, hi, hs] at h
      · rcases hk : NodePool.execute sess killExistingCmd with _ | killOut
        · simp [NodePool.run, hn, hi, hs, hk] at h
        · rcases hv : NodePool.execute_vec sess
              (run_commands (p.infer_conn_params node).1 (p.infer_conn_params node).2)
              with _ | out
          · simp [NodePool.run, hn, hi, hs, hk, hv] at h
          · by_cases hpid : hasSubstr out ("pid") = true
            · simp [NodePool.run, hn, hi, hs, hk, hv, hpid] at h
              exact Or.inr ⟨inst, true, rfl, h.2.symm⟩
            · simp [NodePool.run, hn, hi, hs, hk, hv, hpid] at h
              exact Or.inr ⟨inst, false, rfl, h.2.symm⟩

theorem connect_shape (T : Transport) (p : NodePool) (name : String)
    (r : ConnectResult) (p2 : NodePool)
    (h : NodePool.connect T p name = some (r, p2)) :
    p2.nodes = p.nodes ∧ p2.str_params = p.str_params ∧
      (p2.instances = p.instances ∨ p2.instances = merase p.instances name ∨
        (mcontains p.nodes name = true ∧ ∃ inst, inst.conn_status.subjects = [] ∧
          (p2.instances = minsert p.instances name inst ∨
           p2.instances = minsert (merase p.instances name) name inst))) := by
  rcases hn : mfind p.nodes name with _ | node
  · simp [NodePool.connect, hn] at h
    rw [← h.2]
    exact ⟨rfl, rfl, Or.inl rfl⟩
  · have hcont : mcontains p.nodes name = true := by
      simp [mcontains, hn]
    by_cases htcp : T.tcpOk
    · by_cases hnew : T.sessNewOk
      · by_cases hhs : T.handshakeOk
        · by_cases hacc : T.authAccepted
          · by_cases hauth : T.authenticated
            · rcases hu : NodePool.execute T.session ("uname -a") with _ | plat
              · simp [NodePool.connect, hn, htcp, hnew, hhs, hacc, hauth, hu] at h
              · by_cases hci : mcontains p.instances name
                · simp [NodePool.connect, hn, htcp, hnew, hhs, hacc, hauth, hu, hci] at h
                  rw [← h.2]
                  exact ⟨rfl, rfl, Or.inr (Or.inr ⟨hcont,
                    ⟨_, by simp [Instance.new_ssh, ConnStatus.new], Or.inr rfl⟩⟩)⟩
                · simp [NodePool.connect, hn, htcp, hnew, hhs, hacc, hauth, hu, hci] at h
                  rw [← h.2]
                  exact ⟨rfl, rfl, Or.inr (Or.inr ⟨hcont,
                    ⟨_, by simp [Instance.new_ssh, ConnStatus.new], Or.inl rfl⟩⟩)⟩
            · by_cases hci : mcontains p.instances name
              · simp [NodePool.connect, hn, htcp, hnew, hhs, hacc, hauth, hci] at h
                rw [← h.2]
                exact ⟨rfl, rfl, Or.inr (Or.inl rfl)⟩
              · simp [NodePool.connect, hn, htcp, hnew, hhs, hacc, hauth, hci] at h
                rw [← h.2]
                exact ⟨rfl, rfl, Or.inl rfl⟩
          · by_cases hci : mcontains p.instances name
            · simp [NodePool.connect, hn, htcp, hnew, hhs, hacc, hci] at h
              rw [← h.2]
              exact ⟨rfl, rfl, Or.inr (Or.inl rfl)⟩
            · simp [NodePool.connect, hn, htcp, hnew, hhs, hacc, hci] at h
              rw [← h.2]
              exact ⟨rfl, rfl, Or.inl rfl⟩
        · simp [NodePool.connect, hn, htcp, hnew, hhs] at h
      · simp [NodePool.connect, hn, htcp, hnew] at h
    · simp [NodePool.connect, hn, htcp] at h

theorem SubjectsOk_set_subject (cs : ConnStatus) (subject : DeploySubject)
    (st : SubjectStatus) (hcs : SubjectsOk cs) (hst : StOk st) :
    SubjectsOk (cs.set_subject subject st) := by
  intro k stk hk
  rw [find_set_subject] at hk
  by_cases h : subject = k
  · rw [if_pos h] at hk
    injection hk with hk
    rw [← hk]
    exact hst
  · rw [if_neg h] at hk
    exact hcs k stk hk

theorem DeployInv_set_state (p : NodePool) (name : String) (cs : ConnStatus)
    (hp : DeployInv p) (hcs : SubjectsOk cs) : DeployInv (p.set_state name cs) := by
  intro k inst hk
  rw [find_instances_set_state] at hk
  by_cases h : name = k
  · rw [if_pos h] at hk
    rcases hf : mfind p.instances name with _ | inst0 <;> rw [hf] at hk
    · cases hk
    · rw [Option.map_some'] at hk
      injection hk with hk
      rw [← hk]
      exact hcs
  · rw [if_neg h] at hk
    exact hp k inst hk

theorem InstWf_set_state (p : NodePool) (name : String) (cs : ConnStatus)
    (hp : InstWf p) : InstWf (p.set_state name cs) := by
  intro k inst hk
  rw [find_instances_set_state] at hk
  rw [nodes_set_state]
  by_cases h : name = k
  · rw [if_pos h] at hk
    rcases hf : mfind p.instances name with _ | inst0 <;> rw [hf] at hk
    · cases hk
    · rw [← h]
      exact hp name inst0 hf
  · rw [if_neg h] at hk
    exact hp k inst hk

theorem add_shape (p : NodePool) (name fqdn : String) (params : List (String × String)) :
    ((p.add name fqdn params).2).instances = p.instances ∧
      ((p.add name fqdn params).2.nodes = p.nodes ∨
       (p.add name fqdn params).2.nodes =
         minsert p.nodes name { fqdn := fqdn, str_params := params }) := by
  by_cases h : mcontains p.nodes name <;> simp [NodePool.add, h]

theorem remove_shape (p : NodePool) (name : String) :
    (p.remove name).2 = p ∨
      (mcontains p.nodes name = true ∧
        (p.remove name).2.nodes = merase p.nodes name ∧
        (p.remove name).2.str_params = p.str_params ∧
        ((p.remove name).2.instances = p.instances ∧ mcontains p.instances name = false ∨
         (p.remove name).2.instances = merase p.instances name)) := by
  by_cases h1 : mcontains p.nodes name
  · by_cases h2 : mcontains p.instances name
    · refine Or.inr ⟨h1, ?_, ?_, Or.inr ?_⟩ <;> simp [NodePool.remove, h1, h2]
    · refine Or.inr ⟨h1, ?_, ?_, Or.inl ⟨?_, by simpa using h2⟩⟩ <;>
        simp [NodePool.remove, h1, h2]
  · exact Or.inl (by simp [NodePool.remove, h1])

theorem disconnect_shape (p : NodePool) (name : String) :
    (p.disconnect name).2.nodes = p.nodes ∧ (p.disconnect name).2.str_params = p.str_params ∧
      ((p.disconnect name).2.instances = p.instances ∨
       (p.disconnect name).2.instances = merase p.instances name) := by
  by_cases h1 : mcontains p.nodes name
  · by_cases h2 : mcontains p.instances name
    · exact ⟨by simp [NodePool.disconnect, h1, h2], by simp [NodePool.disconnect, h1, h2],
        Or.inr (by simp [NodePool.disconnect, h1, h2])⟩
    · exact ⟨by simp [NodePool.disconnect, h1, h2], by simp [NodePool.disconnect, h1, h2],
        Or.inl (by simp [NodePool.disconnect, h1, h2])⟩
  · exact ⟨by simp [NodePool.disconnect, h1], by simp [NodePool.disconnect, h1],
      Or.inl (by simp [NodePool.disconnect, h1])⟩

theorem DeployInv_of_instances_merase (p : NodePool) (q : NodePool) (name : String)
    (hq : q.instances = merase p.instances name) (hp : DeployInv p) : DeployInv q := by
  intro k inst hk
  rw [hq, mfind_merase] at hk
  by_cases h : k = name
  · rw [if_pos h] at hk
    cases hk
  · rw [if_neg h] at hk
    exact hp k inst hk

theorem Step_DeployInv {p q : NodePool} (hs : Step p q) (hp : DeployInv p) : DeployInv q := by
  cases hs with
  | add name fqdn params =>
      intro k inst hk
      rw [(add_shape p name fqdn params).1] at hk
      exact hp k inst hk
  | remove name =>
      rcases remove_shape p name with h | ⟨_, _, _, ⟨hi, _⟩ | hi⟩
      · rw [h]
        exact hp
      · intro k inst hk
        rw [hi] at hk
        exact hp k inst hk
      · exact DeployInv_of_instances_merase p _ name hi hp
  | disconnect name =>
      rcases (disconnect_shape p name).2.2 with hi | hi
      · intro k inst hk
        rw [hi] at hk
        exact hp k inst hk
      · exact DeployInv_of_instances_merase p _ name hi hp
  | connect T name r h =>
      rcases connect_shape T p name r.1 r.2 (by rw [← h]) with ⟨_, _, hi | hi | ⟨_, inst1, hsub, hi | hi⟩⟩
      · intro k inst hk
        rw [hi] at hk
        exact hp k inst hk
      · exact DeployInv_of_instances_merase p _ name hi hp
      · intro k inst hk
        rw [hi, mfind_minsert] at hk
        by_cases hkn : name = k
        · rw [if_pos hkn] at hk
          injection hk with hk
          rw [← hk]
          intro s st hst
          rw [hsub] at hst
          cases hst
        · rw [if_neg hkn] at hk
          exact hp k inst hk
      · intro k inst hk
        rw [hi, mfind_minsert] at hk
        by_cases hkn : name = k
        · rw [if_pos hkn] at hk
          injection hk with hk
          rw [← hk]
          intro s st hst
          rw [hsub] at hst
          cases hst
        · rw [if_neg hkn, mfind_merase] at hk
          by_cases hkn2 : k = name
          · rw [if_pos hkn2] at hk
            cases hk
          · rw [if_neg hkn2] at hk
            exact hp k inst hk
  | deploy fs name subject r h =>
      rcases deploy_shape fs p name subject r.1 r.2 (by rw [← h]) with hq | ⟨inst, st, hinst, hq, _, hst⟩
      · rw [hq]
        exact hp
      · rw [hq]
        exact DeployInv_set_state p name _ hp
          (SubjectsOk_set_subject _ subject st (hp name inst hinst) hst)
  | run name subject r h =>
      rcases run_shape p name subject r.1 r.2 (by rw [← h]) with hq | ⟨inst, b, hinst, hq⟩
      · rw [hq]
        exact hp
      · rw [hq]
        exact DeployInv_set_state p name _ hp
          (SubjectsOk_set_subject _ subject _ (hp name inst hinst)
            (StOk_running_update _ b
              (StOk_get_subject inst.conn_status subject (hp name inst hinst))))

theorem Step_InstWf {p q : NodePool} (hs : Step p q) (hp : InstWf p) : InstWf q := by
  cases hs with
  | add name fqdn params =>
      intro k inst hk
      rw [(add_shape p name fqdn params).1] at hk
      rcases (add_shape p name fqdn params).2 with hn | hn <;> rw [hn]
      · exact hp k inst hk
      · have := hp k inst hk
        rw [mcontains_iff] at this ⊢
        obtain ⟨v, hv⟩ := this
        rw [mfind_minsert]
        by_cases hkn : name = k
        · exact ⟨_, if_pos hkn⟩
        · exact ⟨v, by rw [if_neg hkn]; exact hv⟩
  | remove name =>
      rcases remove_shape p name with h | ⟨hc, hn, _, ⟨hi, hci⟩ | hi⟩
      · rw [h]
        exact hp
      · intro k inst hk
        rw [hi] at hk
        rw [hn]
        have hkn : ¬ (k = name) := by
          intro hkn
          rw [hkn] at hk
          simp [mcontains, hk] at hci
        have := hp k inst hk
        rw [mcontains_iff] at this ⊢
        obtain ⟨v, hv⟩ := this
        rw [mfind_merase, if_neg hkn]
        exact ⟨v, hv⟩
      · intro k inst hk
        rw [hi, mfind_merase] at hk
        rw [hn]
        by_cases hkn : k = name
        · rw [if_pos hkn] at hk
          cases hk
        · rw [if_neg hkn] at hk
          have := hp k inst hk
          rw [mcontains_iff] at this ⊢
          obtain ⟨v, hv⟩ := this
          rw [mfind_merase, if_neg hkn]
          exact ⟨v, hv⟩
  | disconnect name =>
      obtain ⟨hn, _, hi⟩ := disconnect_shape p name
      intro k inst hk
      rw [hn]
      rcases hi with hi | hi <;> rw [hi] at hk
      · exact hp k inst hk
      · rw [mfind_merase] at hk
        by_cases hkn : k = name
        · rw [if_pos hkn] at hk
          cases hk
        · rw [if_neg hkn] at hk
          exact hp k inst hk
  | connect T name r h =>
      obtain ⟨hn, _, hi⟩ := connect_shape T p name r.1 r.2 (by rw [← h])
      intro k inst hk
      rw [hn]
      rcases hi with hi | hi | ⟨hc, inst1, _, hi | hi⟩
      · rw [hi] at hk
        exact hp k inst hk
      · rw [hi, mfind_merase] at hk
        by_cases hkn : k = name
        · rw [if_pos hkn] at hk
          cases hk
        · rw [if_neg hkn] at hk
          exact hp k inst hk
      · rw [hi, mfind_minsert] at hk
        by_cases hkn : name = k
        · rw [← hkn]
          exact hc
        · rw [if_neg hkn] at hk
          exact hp k inst hk
      · rw [hi, mfind_minsert] at hk
        by_cases hkn : name = k
        · rw [← hkn]
          exact hc
        · rw [if_neg hkn, mfind_merase] at hk
          by_cases hkn2 : k = name
          · rw [if_pos hkn2] at hk
            cases hk
          · rw [if_neg hkn2] at hk
            exact hp k inst hk
  | deploy fs name subject r h =>
      rcases deploy_shape fs p name subject r.1 r.2 (by rw [← h]) with hq | ⟨inst, st, _, hq, _, _⟩
      · rw [hq]
        exact hp
      · rw [hq]
        exact InstWf_set_state p name _ hp
  | run name subject r h =>
      rcases run_shape p name subject r.1 r.2 (by rw [← h]) with hq | ⟨inst, b, _, hq⟩
      · rw [hq]
        exact hp
      · rw [hq]
        exact InstWf_set_state p name _ hp

theorem Reachable_DeployInv {p : NodePool} (hp : Reachable p) : DeployInv p := by
  induction hp with
  | base =>
      intro k inst hk
      cases hk
  | step hp hs ih => exact Step_DeployInv hs ih

theorem Reachable_InstWf {p : NodePool} (hp : Reachable p) : InstWf p := by
  induction hp with
  | base =>
      intro k inst hk
      cases hk
  | step hp hs ih => exact Step_InstWf hs ih

theorem RA_Reachable {bad : String} {p : NodePool} (hp : ReachableAvoiding bad p) :
    Reachable p := by
  induction hp with
  | base => exact Reachable.base
  | add hp name fqdn params hne ih => exact Reachable.step ih (Step.add _ name fqdn params)
  | remove hp name ih => exact Reachable.step ih (Step.remove _ name)
  | disconnect hp name ih => exact Reachable.step ih (Step.disconnect _ name)
  | connect hp T name r h ih => exact Reachable.step ih (Step.connect _ T name r h)
  | deploy hp fs name subject r h ih =>
      exact Reachable.step ih (Step.deploy _ fs name subject r h)
  | run hp name subject r h ih => exact Reachable.step ih (Step.run _ name subject r h)

theorem RA_absent {bad : String} {p : NodePool} (hp : ReachableAvoiding bad p) :
    mfind p.nodes bad = none ∧ mfind p.instances bad = none := by
  induction hp with
  | base => exact ⟨rfl, rfl⟩
  | add hp name fqdn params hne ih =>
      obtain ⟨ihn, ihi⟩ := ih
      refine ⟨?_, ?_⟩
      · rcases (add_shape _ name fqdn params).2 with hn | hn <;> rw [hn]
        · exact ihn
        · rw [mfind_minsert, if_neg hne]
          exact ihn
      · rw [(add_shape _ name fqdn params).1]
        exact ihi
  | remove hp name ih =>
      obtain ⟨ihn, ihi⟩ := ih
      rcases remove_shape _ name with h | ⟨_, hn, _, ⟨hi, _⟩ | hi⟩
      · rw [h]
        exact ⟨ihn, ihi⟩
      · rw [hn, hi, mfind_merase]
        refine ⟨?_, ihi⟩
        by_cases hb : bad = name
        · rw [if_pos hb]
        · rw [if_neg hb]
          exact ihn
      · rw [hn, hi, mfind_merase, mfind_merase]
        constructor
        · by_cases hb : bad = name
          · rw [if_pos hb]
          · rw [if_neg hb]
            exact ihn
        · by_cases hb : bad = name
          · rw [if_pos hb]
          · rw [if_neg hb]
            exact ihi
  | disconnect hp name ih =>
      obtain ⟨ihn, ihi⟩ := ih
      obtain ⟨hn, _, hi⟩ := disconnect_shape _ name
      rw [hn]
      refine ⟨ihn, ?_⟩
      rcases hi with hi | hi <;> rw [hi]
      · exact ihi
      · rw [mfind_merase]
        by_cases hb : bad = name
        · rw [if_pos hb]
        · rw [if_neg hb]
          exact ihi
  | connect hp T name r h ih =>
      obtain ⟨ihn, ihi⟩ := ih
      obtain ⟨hn, _, hi⟩ := connect_shape T _ name r.1 r.2 (by rw [← h])
      rw [hn]
      refine ⟨ihn, ?_⟩
      rcases hi with hi | hi | ⟨hc, inst1, _, hi | hi⟩ <;> rw [hi]
      · exact ihi
      · rw [mfind_merase]
        by_cases hb : bad = name
        · rw [if_pos hb]
        · rw [if_neg hb]
          exact ihi
      · have hne : ¬ (name = bad) := by
          intro hb
          rw [hb, mcontains, ihn] at hc
          cases hc
        rw [mfind_minsert, if_neg hne]
        exact ihi
      · have hne : ¬ (name = bad) := by
          intro hb
          rw [hb, mcontains, ihn] at hc
          cases hc
        rw [mfind_minsert, if_neg hne, mfind_merase]
        by_cases hb : bad = name
        · rw [if_pos hb]
        · rw [if_neg hb]
          exact ihi
  | deploy hp fs name subject r h ih =>
      obtain ⟨ihn, ihi⟩ := ih
      rcases deploy_shape fs _ name subject r.1 r.2 (by rw [← h]) with hq | ⟨inst, st, _, hq, _, _⟩
      · rw [hq]
        exact ⟨ihn, ihi⟩
      · rw [hq, nodes_set_state, find_instances_set_state]
        refine ⟨ihn, ?_⟩
        by_cases hb : name = bad
        · rw [if_pos hb, hb, ihi]
          rfl
        · rw [if_neg hb]
          exact ihi
  | run hp name subject r h ih =>
      obtain ⟨ihn, ihi⟩ := ih
      rcases run_shape _ name subject r.1 r.2 (by rw [← h]) with hq | ⟨inst, b, _, hq⟩
      · rw [hq]
        exact ⟨ihn, ihi⟩
      · rw [hq, nodes_set_state, find_instances_set_state]
        refine ⟨ihn, ?_⟩
        by_cases hb : name = bad
        · rw [if_pos hb, hb, ihi]
          rfl
        · rw [if_neg hb]
          exact ihi

theorem connect_pool1 : NodePool.connect allOkT pool1 ("n1") = some (ConnectResult.Ok, pool2) := by
  rfl

theorem deploy_pool2 :
    NodePool.deploy goodFs pool2 ("n1") DeploySubject.Visao = some (DeployResult.Ok, pool3) := by
  rfl

theorem reach_pool3 : Reachable pool3 := by
  have h1 : Reachable pool1 :=
    Reachable.step Reachable.base (Step.add NodePool.new ("n1") ("host:22") [])
  have h2 : Reachable pool2 :=
    Reachable.step h1 (Step.connect pool1 allOkT ("n1") (ConnectResult.Ok, pool2) connect_pool1)
  exact Reachable.step h2
    (Step.deploy pool2 goodFs ("n1") DeploySubject.Visao (DeployResult.Ok, pool3) deploy_pool2)

theorem reachAvoid_pool3 : ReachableAvoiding ("ghost") pool3 := by
  have h1 : ReachableAvoiding ("ghost") pool1 :=
    ReachableAvoiding.add ReachableAvoiding.base ("n1") ("host:22") [] (by decide)
  have h2 : ReachableAvoiding ("ghost") pool2 :=
    ReachableAvoiding.connect h1 allOkT ("n1") (ConnectResult.Ok, pool2) connect_pool1
  exact ReachableAvoiding.deploy h2 goodFs ("n1") DeploySubject.Visao
    (DeployResult.Ok, pool3) deploy_pool2

theorem remove_nodes_none (p : NodePool) (name : String) :
    mfind (p.remove name).2.nodes name = none := by
  by_cases hc : mcontains p.nodes name
  · by_cases h2 : mcontains p.instances name <;>
      simp [NodePool.remove, hc, h2, mfind_merase]
  · have hnone : mfind p.nodes name = none := by
      rcases hf : mfind p.nodes name with _ | v
      · rfl
      · rw [mcontains, hf] at hc
        exact absurd rfl hc
    simp [NodePool.remove, hc, hnone]

/-- Claim C1: deploy pipeline staging.  For a registered, connected node and a
non-reserved subject: a failed archive transfer persists
copied=extracted=tested=deployed=false and returns DeployCopyFailed; transfer
success with empty extraction output persists copied=true and the rest false
and returns DeployExtractionFailed; extraction success with empty smoke-test
output persists copied=extracted=true, tested=deployed=false and returns
DeployTestFailed; full success persists all four flags true and returns Ok.
The first conjunct shows the persisted status is written back to the node's
Instance in every terminal case: reading the resulting pool through
`is_connected`/`get_subject` yields exactly the persisted record. -/
theorem claim_C1 (fs : LocalFs) (p : NodePool) (name : String) (subject : DeploySubject)
    (node : Node) (inst : Instance) (sess : SshSession)
    (hsub : subject ≠ DeploySubject.Delta)
    (hnode : mfind p.nodes name = some node)
    (hinst : mfind p.instances name = some inst)
    (hsess : inst.ssh_session = some sess) :
    (∀ st, (((p.set_state name (inst.conn_status.set_subject subject st)).is_connected
        name).get_subject subject) = st) ∧
    (NodePool.upload_file fs sess (p.get_node_param node NodeParameters.Distr) archivePath
        = some false →
      NodePool.deploy fs p name subject =
        some (DeployResult.DeployCopyFailed,
          p.set_state name (inst.conn_status.set_subject subject
            { inst.conn_status.get_subject subject with
                deployed := false
                deploy_archive_copied := false
                deploy_archive_extracted := false
                deploy_archive_tested := false }))) ∧
    (NodePool.upload_file fs sess (p.get_node_param node NodeParameters.Distr) archivePath
        = some true →
      NodePool.execute sess extractCmd = some ("") →
      NodePool.deploy fs p name subject =
        some (DeployResult.DeployExtractionFailed,
          p.set_state name (inst.conn_status.set_subject subject
            { inst.conn_status.get_subject subject with
                deployed := false
                deploy_archive_copied := true
                deploy_archive_extracted := false
                deploy_archive_tested := false }))) ∧
    (∀ out1, NodePool.upload_file fs sess (p.get_node_param node NodeParameters.Distr)
        archivePath = some true →
      NodePool.execute sess extractCmd = some out1 → out1 ≠ "" →
      NodePool.execute sess testCmd = some ("") →
      NodePool.deploy fs p name subject =
        some (DeployResult.DeployTestFailed,
          p.set_state name (inst.conn_status.set_subject subject
            { inst.conn_status.get_subject subject with
                deployed := false
                deploy_archive_copied := true
                deploy_archive_extracted := true
                deploy_archive_tested := false }))) ∧
    (∀ out1 out2, NodePool.upload_file fs sess (p.get_node_param node NodeParameters.Distr)
        archivePath = some true →
      NodePool.execute sess extractCmd = some out1 → out1 ≠ "" →
      NodePool.execute sess testCmd = some out2 → out2 ≠ "" →
      NodePool.deploy fs p name subject =
        some (DeployResult.Ok,
          p.set_state name (inst.conn_status.set_subject subject
            { inst.conn_status.get_subject subject with
                deployed := true
                deploy_archive_copied := true
                deploy_archive_extracted := true
                deploy_archive_tested := true }))) := by
  refine ⟨?_, ?_, ?_, ?_, ?_⟩
  · intro st
    rw [is_connected_set_state p name _ inst hinst, get_subject_set_subject]
  · intro hup
    exact deploy_copy_failed fs p name subject node inst sess hsub hnode hinst hsess hup
  · intro hup hext
    exact deploy_extraction_failed fs p name subject node inst sess hsub hnode hinst hsess
      hup hext
  · intro out1 hup hext hout1 htest
    exact deploy_test_failed fs p name subject node inst sess out1 hsub hnode hinst hsess
      hup hext hout1 htest
  · intro out1 out2 hup hext hout1 htest hout2
    exact deploy_all_ok fs p name subject node inst sess out1 out2 hsub hnode hinst hsess
      hup hext hout1 htest hout2

theorem claim_C1_witness :
    NodePool.deploy goodFs pool2 ("n1") DeploySubject.Visao =
      some (DeployResult.Ok,
        pool2.set_state ("n1") (inst2.conn_status.set_subject DeploySubject.Visao
          { inst2.conn_status.get_subject DeploySubject.Visao with
              deployed := true
              deploy_archive_copied := true
              deploy_archive_extracted := true
              deploy_archive_tested := true })) ∧
    (((pool2.set_state ("n1") (inst2.conn_status.set_subject DeploySubject.Visao
        stDeployed)).is_connected ("n1")).get_subject DeploySubject.Visao) = stDeployed := by
  have h := claim_C1 goodFs pool2 ("n1") DeploySubject.Visao node1 inst2 goodSess
    (by decide) rfl rfl rfl
  exact ⟨h.2.2.2.2 ("ok-output") ("ok-output") rfl rfl (by decide) rfl (by decide),
    h.1 stDeployed⟩

/-- Claim C2 (evaluation of the code at the failing inputs): with node n1
registered, a connect attempt whose TCP connection is refused aborts the
process (the source unwraps `TcpStream::connect`) instead of returning a typed
variant; likewise a broken pipe in the transfer-finalization sequence of
`upload_file` (the source unwraps `send_eof`/`wait_eof`/`close`/`wait_close`)
aborts instead of mapping to a stage failure. -/
theorem claim_C2_panic :
    NodePool.connect refusedT pool1 ("n1") = none ∧
    NodePool.upload_file goodFs { goodSess with scpFinish := false }
      ("/distr.tar.xz") ("/tmp/visao-archive.tar.xz") = none := by
  exact ⟨rfl, rfl⟩

/-- Claim C3 is false as stated: for a name never passed to `add`, `deploy`
with the reserved subject returns InvalidArgument (the reserved-subject check
precedes the registry check), not NodeNotFound, and `is_alive` returns the
default status rather than a NodeNotFound error. -/
theorem claim_C3_counterexample :
    NodePool.deploy goodFs NodePool.new ("ghost") DeploySubject.Delta =
      some (DeployResult.InvalidArgument, NodePool.new) ∧
    DeployResult.InvalidArgument ≠ DeployResult.NodeNotFound ∧
    NodePool.new.is_alive ("ghost") = some ConnAliveStatus.new := by
  refine ⟨rfl, by decide, rfl⟩

/-- Claim C3 (amended): for a pool reachable without ever passing `bad` to
`add`: `remove`, `disconnect`, `connect`, `run` — and `deploy` for every
non-reserved subject — return NodeNotFound with the pool unchanged, while
`is_connected` and `is_alive` return their documented defaults (their return
types have no NodeNotFound variant). -/
theorem claim_C3 (bad : String) (p : NodePool) (hp : ReachableAvoiding bad p)
    (subject : DeploySubject) (hsub : subject ≠ DeploySubject.Delta)
    (T : Transport) (fs : LocalFs) :
    p.remove bad = (RemoveResult.NodeNotFound, p) ∧
    p.disconnect bad = (DisconnectResult.NodeNotFound, p) ∧
    NodePool.connect T p bad = some (ConnectResult.NodeNotFound, p) ∧
    NodePool.deploy fs p bad subject = some (DeployResult.NodeNotFound, p) ∧
    p.run bad subject = some (RunResult.NodeNotFound, p) ∧
    p.is_connected bad = ConnStatus.new false ∧
    p.is_alive bad = some ConnAliveStatus.new := by
  obtain ⟨hn, hi⟩ := RA_absent hp
  refine ⟨?_, ?_, ?_, ?_, ?_, ?_, ?_⟩
  · simp [NodePool.remove, mcontains, hn]
  · simp [NodePool.disconnect, mcontains, hn]
  · simp [NodePool.connect, hn]
  · simp [NodePool.deploy, hsub, hn]
  · simp [NodePool.run, hn]
  · simp [NodePool.is_connected, hi]
  · simp [NodePool.is_alive, hi]

theorem claim_C3_witness :
    pool3.remove ("ghost") = (RemoveResult.NodeNotFound, pool3) ∧
    pool3.is_alive ("ghost") = some ConnAliveStatus.new := by
  have h := claim_C3 ("ghost") pool3 reachAvoid_pool3 DeploySubject.Visao (by decide)
    allOkT goodFs
  exact ⟨h.1, h.2.2.2.2.2.2⟩

/-- Claim C4: on every reachable pool state, every subject status stored in
any Instance has its stage flags in strict pipeline order — in particular
`deployed = true` forces copied, extracted and tested all true — and every
exposed state-changing operation (a `Step`: add, remove, connect, disconnect,
deploy, run; is_connected and is_alive do not touch state) preserves the
ordered-flags invariant. -/
theorem claim_C4 (p : NodePool) (hp : Reachable p) :
    (∀ name inst subject st, mfind p.instances name = some inst →
       mfind inst.conn_status.subjects subject = some st → st.deployed = true →
       st.deploy_archive_copied = true ∧ st.deploy_archive_extracted = true ∧
         st.deploy_archive_tested = true) ∧
    (∀ q, Step p q →
       ∀ name inst subject st, mfind q.instances name = some inst →
         mfind inst.conn_status.subjects subject = some st →
         (st.deploy_archive_extracted = true → st.deploy_archive_copied = true) ∧
         (st.deploy_archive_tested = true → st.deploy_archive_extracted = true) ∧
         (st.deployed = true → st.deploy_archive_tested = true)) := by
  have h1 := Reachable_DeployInv hp
  constructor
  · intro name inst subject st hi hs hd
    obtain ⟨a, b, c⟩ := h1 name inst hi subject st hs
    have ht := c hd
    have he := b ht
    exact ⟨a he, he, ht⟩
  · intro q hq name inst subject st hi hs
    exact Step_DeployInv hq h1 name inst hi subject st hs

theorem claim_C4_witness :
    stDeployed.deploy_archive_copied = true ∧ stDeployed.deploy_archive_extracted = true ∧
      stDeployed.deploy_archive_tested = true :=
  (claim_C4 pool3 reach_pool3).1 ("n1") inst3 DeploySubject.Visao stDeployed rfl rfl rfl

/-- Claim C5: for every pool state, node name (registered or not, connected or
not) and filesystem behaviour, deploying the reserved self-subject (Delta)
returns InvalidArgument with the pool unchanged; the check precedes the
registry and connection checks. -/
theorem claim_C5 (fs : LocalFs) (p : NodePool) (name : String) :
    NodePool.deploy fs p name DeploySubject.Delta =
      some (DeployResult.InvalidArgument, p) := by
  simp [NodePool.deploy]

/-- Claim C6: in the run pipeline's parameter resolution, a resolved bind
address containing a single- or double-quote character is replaced by the
loopback default (as is an empty one), a resolved bind port that does not
parse as a u16 is replaced by the default port 5700, and the command vector
the run pipeline hands to the remote shell is built from exactly the
sanitized pair. -/
theorem claim_C6 (p : NodePool) (node : Node) :
    (strHasChar (p.get_node_param node NodeParameters.BindAddr) squote = true ∨
       strHasChar (p.get_node_param node NodeParameters.BindAddr) dquote = true →
       (p.infer_conn_params node).1 = "127.0.0.1") ∧
    (p.get_node_param node NodeParameters.BindAddr = "" →
       (p.infer_conn_params node).1 = "127.0.0.1") ∧
    (parse_u16 (p.get_node_param node NodeParameters.BindPort) = none →
       (p.infer_conn_params node).2 = "5700") ∧
    (∀ name subject inst sess killOut out,
       mfind p.nodes name = some node → mfind p.instances name = some inst →
       inst.ssh_session = some sess →
       NodePool.execute sess killExistingCmd = some killOut →
       NodePool.execute_vec sess
         (run_commands (p.infer_conn_params node).1 (p.infer_conn_params node).2) =
           some out →
       hasSubstr out ("pid") = true →
       p.run name subject =
         some (RunResult.Ok, p.set_state name (inst.conn_status.set_subject subject
           { inst.conn_status.get_subject subject with running := true }))) := by
  refine ⟨?_, ?_, ?_, ?_⟩
  · intro h
    rcases h with h | h <;> simp [NodePool.infer_conn_params, h]
  · intro h
    simp [NodePool.infer_conn_params, h]
  · intro h
    simp [NodePool.infer_conn_params, h]
  · intro name subject inst sess killOut out hn hi hs hk hv hpid
    simp [NodePool.run, hn, hi, hs, hk, hv, hpid]

theorem claim_C6_witness :
    (poolQ.infer_conn_params nodeQ).1 = "127.0.0.1" ∧
    (poolQ.infer_conn_params nodeQ).2 = "5700" ∧
    poolQ.run ("q") DeploySubject.Visao =
      some (RunResult.Ok, poolQ.set_state ("q") (instQ.conn_status.set_subject
        DeploySubject.Visao { instQ.conn_status.get_subject DeploySubject.Visao with
          running := true })) := by
  have h := claim_C6 poolQ nodeQ
  exact ⟨h.1 (Or.inr rfl), h.2.2.1 rfl,
    h.2.2.2 ("q") DeploySubject.Visao instQ runSess ("x") ("pid 99") rfl rfl rfl rfl rfl rfl⟩

/-- Claim C7: on every reachable pool state: removing a registered node
returns Ok and deletes both the registry entry and any live Instance; no
reachable state contains an Instance whose name is absent from the registry;
and connect after remove on the same name returns NodeNotFound. -/
theorem claim_C7 (p : NodePool) (hp : Reachable p) (name : String) :
    (mcontains p.nodes name = true →
      (p.remove name).1 = RemoveResult.Ok ∧
      mfind (p.remove name).2.nodes name = none ∧
      mfind (p.remove name).2.instances name = none) ∧
    (∀ k inst, mfind p.instances k = some inst → mcontains p.nodes k = true) ∧
    (∀ T, NodePool.connect T (p.remove name).2 name =
      some (ConnectResult.NodeNotFound, (p.remove name).2)) := by
  refine ⟨?_, Reachable_InstWf hp, ?_⟩
  · intro hc
    refine ⟨by simp [NodePool.remove, hc], remove_nodes_none p name, ?_⟩
    by_cases h2 : mcontains p.instances name
    · simp [NodePool.remove, hc, h2, mfind_merase]
    · have hnone : mfind p.instances name = none := by
        rcases hf : mfind p.instances name with _ | v
        · rfl
        · rw [mcontains, hf] at h2
          exact absurd rfl h2
      simp [NodePool.remove, hc, h2, hnone]
  · intro T
    simp [NodePool.connect, remove_nodes_none p name]

theorem claim_C7_witness :
    ((pool3.remove ("n1")).1 = RemoveResult.Ok ∧
      mfind (pool3.remove ("n1")).2.nodes ("n1") = none ∧
      mfind (pool3.remove ("n1")).2.instances ("n1") = none) ∧
    NodePool.connect allOkT (pool3.remove ("n1")).2 ("n1") =
      some (ConnectResult.NodeNotFound, (pool3.remove ("n1")).2) := by
  have h := claim_C7 pool3 reach_pool3 ("n1")
  exact ⟨h.1 rfl, h.2.2 allOkT⟩

/-- Claim C8: `is_alive` on a node with no live session returns the default
status (alive=false, empty bind address, port 0) without error and without a
session to command; on a connected node the result is alive=true exactly when
the pid sentinel parses as a number, the liveness probe echoes the marker, and
the bind-port sentinel parses as a u16 — in every other case the default
not-alive status with the default endpoint is returned.  (`is_alive` takes the
pool immutably — `&self` in the source — so it can mutate no persisted pool
state by construction.) -/
theorem claim_C8 (p : NodePool) (name : String) :
    (mfind p.instances name = none →
       p.is_alive name = some ConnAliveStatus.new ∧
       ConnAliveStatus.new = { alive := false, bind_addr := "", bind_port := 0 }) ∧
    (∀ inst sess pid, mfind p.instances name = some inst →
       inst.ssh_session = some sess →
       NodePool.execute sess ("cat /tmp/visao/pid") = some pid →
       parse_u64 (rustTrim pid) = none →
       p.is_alive name = some ConnAliveStatus.new) ∧
    (∀ inst sess pid runs, mfind p.instances name = some inst →
       inst.ssh_session = some sess →
       NodePool.execute sess ("cat /tmp/visao/pid") = some pid →
       (parse_u64 (rustTrim pid)).isSome = true →
       NodePool.execute sess ("kill -0 " ++ rustTrim pid ++ " && echo runs") = some runs →
       hasSubstr runs ("runs") = false →
       p.is_alive name = some ConnAliveStatus.new) ∧
    (∀ inst sess pid runs addr port, mfind p.instances name = some inst →
       inst.ssh_session = some sess →
       NodePool.execute sess ("cat /tmp/visao/pid") = some pid →
       (parse_u64 (rustTrim pid)).isSome = true →
       NodePool.execute sess ("kill -0 " ++ rustTrim pid ++ " && echo runs") = some runs →
       hasSubstr runs ("runs") = true →
       NodePool.execute sess ("cat /tmp/visao/bind_addr") = some addr →
       NodePool.execute sess ("cat /tmp/visao/bind_port") = some port →
       parse_u16 (rustTrim port) = none →
       p.is_alive name = some ConnAliveStatus.new) ∧
    (∀ inst sess pid runs addr port v, mfind p.instances name = some inst →
       inst.ssh_session = some sess →
       NodePool.execute sess ("cat /tmp/visao/pid") = some pid →
       (parse_u64 (rustTrim pid)).isSome = true →
       NodePool.execute sess ("kill -0 " ++ rustTrim pid ++ " && echo runs") = some runs →
       hasSubstr runs ("runs") = true →
       NodePool.execute sess ("cat /tmp/visao/bind_addr") = some addr →
       NodePool.execute sess ("cat /tmp/visao/bind_port") = some port →
       parse_u16 (rustTrim port) = some v →
       p.is_alive name =
         some { alive := true, bind_addr := rustTrim addr, bind_port := v }) := by
  refine ⟨?_, ?_, ?_, ?_, ?_⟩
  · intro hi
    exact ⟨by simp [NodePool.is_alive, hi], rfl⟩
  · intro inst sess pid hi hs hpid hparse
    simp [NodePool.is_alive, hi, hs, hpid, hparse]
  · intro inst sess pid runs hi hs hpid hparse hruns hmark
    simp [NodePool.is_alive, hi, hs, hpid, hparse, hruns, hmark]
  · intro inst sess pid runs addr port hi hs hpid hparse hruns hmark haddr hport hpp
    simp [NodePool.is_alive, hi, hs, hpid, hparse, hruns, hmark, haddr, hport, hpp]
  · intro inst sess pid runs addr port v hi hs hpid hparse hruns hmark haddr hport hpp
    simp [NodePool.is_alive, hi, hs, hpid, hparse, hruns, hmark, haddr, hport, hpp]

theorem claim_C8_witness :
    NodePool.new.is_alive ("nobody") = some ConnAliveStatus.new ∧
    poolA.is_alive ("a") = some { alive := true, bind_addr := "0.0.0.0", bind_port := 6000 } := by
  have h0 := (claim_C8 NodePool.new ("nobody")).1 rfl
  have h := (claim_C8 poolA ("a")).2.2.2.2 instA aliveSess ("123") ("runs") ("0.0.0.0")
    ("6000") 6000 rfl rfl rfl rfl rfl rfl rfl rfl rfl
  exact ⟨h0.1, h⟩

/-- Claim C9: `add` is not idempotent and is atomic on failure: adding an
already-registered name returns NodeAlreadyExists with the whole pool — in
particular the original node's address and parameter map — unmodified; adding
a fresh name inserts exactly the given node and returns Ok. -/
theorem claim_C9 (p : NodePool) (name fqdn : String) (params : List (String × String)) :
    (mcontains p.nodes name = true →
       p.add name fqdn params = (AddResult.NodeAlreadyExists, p)) ∧
    (mcontains p.nodes name = false →
       (p.add name fqdn params).1 = AddResult.Ok ∧
       (p.add name fqdn params).2 =
         { p with nodes := minsert p.nodes name { fqdn := fqdn, str_params := params } }) := by
  constructor
  · intro h
    simp [NodePool.add, h]
  · intro h
    simp [NodePool.add, h]

theorem claim_C9_witness :
    pool1.add ("n1") ("other-host") [] = (AddResult.NodeAlreadyExists, pool1) ∧
    (NodePool.new.add ("n1") ("host:22") []).1 = AddResult.Ok := by
  have h1 := (claim_C9 pool1 ("n1") ("other-host") []).1 rfl
  have h2 := (claim_C9 NodePool.new ("n1") ("host:22") []).2 rfl
  exact ⟨h1, h2.1⟩

/-- Claim C10: deploy never changes the `running` flag: for every pool, node
name, subject and collaborator behaviour, whenever deploy returns (it did not
abort), the subject's `running` flag read back from the resulting pool equals
its value before the call — deploy rewrites only the four deploy-stage
flags even though the SubjectStatus record is written back wholesale. -/
theorem claim_C10 (fs : LocalFs) (p : NodePool) (name : String) (subject : DeploySubject)
    (r : DeployResult) (p2 : NodePool)
    (h : NodePool.deploy fs p name subject = some (r, p2)) :
    ((p2.is_connected name).get_subject subject).running =
      ((p.is_connected name).get_subject subject).running := by
  rcases deploy_shape fs p name subject r p2 h with hq | ⟨inst, st, hinst, hq, hrun, _⟩
  · rw [hq]
  · rw [hq, is_connected_set_state p name _ inst hinst, get_subject_set_subject, hrun]
    simp [NodePool.is_connected, hinst]

theorem claim_C10_witness :
    ((pool3.is_connected ("n1")).get_subject DeploySubject.Visao).running =
      ((pool2.is_connected ("n1")).get_subject DeploySubject.Visao).running :=
  claim_C10 goodFs pool2 ("n1") DeploySubject.Visao DeployResult.Ok pool3 deploy_pool2
